import Mathlib

/-!
Shallow embedding of the kraken cooler-control program (src/main.rs) and
verification of its specification claims.

Modelling conventions:
* Rust `f32` values are modelled as exact rationals (`ℚ`); all floating
  computations in the program stay within small, exactly representable ranges
  and the specification states them in exact real arithmetic.
* Byte buffers are `List Nat` whose entries are below 256 where byte-ness
  matters; the `u8` domain appears as an explicit hypothesis.
* A Rust operation that can panic (an out-of-bounds slice/array index) is
  embedded as an `Option`-valued function, `none` modelling the panic.
-/

namespace Kraken

/-- Decoded device state, `struct Status` of src/main.rs (lines 69-73):
temperature (`f32`, modelled as ℚ) and 16-bit fan/pump RPM. -/
structure Status where
  temp : ℚ
  fan : Nat
  pump : Nat
  deriving DecidableEq, Repr

/-- The fixed template for bytes 7..16 of a status frame,
`expected` in `Status::decode_status` (line 79). -/
def expected : List Nat :=
  [0x00, 0x00, 0x00, 0xff, 0x02, 0x00, 0x01, 0x08, 0x1e, 0x00]

/-- The verbose diagnostic loop `for i in 7..buf.len()` of `decode_status`
(lines 87-92): each iteration reads `expected[i - 7]`, which panics (modelled
as `none`) when `i - 7` is out of bounds, i.e. when the frame is longer than
17 bytes.  The printed warnings themselves have no effect on the result. -/
def check_bytes (buf : List Nat) (i : Nat) : Option Unit :=
  if h : i < buf.length then
    match expected[i - 7]? with
    | none => none
    | some _ => check_bytes buf (i + 1)
  else
    some ()
termination_by buf.length - i

/-- The value-producing tail of `Status::decode_status` (lines 94-107): frames
longer than 6 bytes are decoded from bytes 1..6, anything shorter yields the
neutral status.  The byte reads are embedded fallibly (`buf[i]?`) so that
in-bounds access is a proved property, not an assumption. -/
def decode_core (buf : List Nat) : Option Status :=
  if 6 < buf.length then do
    let b1 : Nat ← buf[1]?
    let b2 : Nat ← buf[2]?
    let b3 : Nat ← buf[3]?
    let b4 : Nat ← buf[4]?
    let b5 : Nat ← buf[5]?
    let b6 : Nat ← buf[6]?
    pure ⟨(b1 : ℚ) + (b2 : ℚ) / 9, b4 ||| (b3 <<< 8), b6 ||| (b5 <<< 8)⟩
  else
    pure ⟨0, 0, 0⟩

/-- `Status::decode_status(buf, verbose)` (lines 77-108).  In verbose mode the
code first reads `buf[0]` (panics on an empty frame) and runs the template
check loop (panics past 17 bytes) before the length-guarded decode. -/
def decode_status (buf : List Nat) (verbose : Bool) : Option Status :=
  match verbose with
  | true =>
    match buf[0]? with
    | none => none
    | some _ =>
      match check_bytes buf 7 with
      | none => none
      | some _ => decode_core buf
  | false =>
    decode_core buf

/-- The two speed channels served by `UsbController::set_fan` and
`UsbController::set_pump`. -/
inductive Channel
  | fan
  | pump
  deriving DecidableEq, Repr

/-- Third byte of a speed frame: `0x00` in `set_fan` (line 188), `0x40` in
`set_pump` (line 196). -/
def channel_selector : Channel → Nat
  | Channel.fan => 0x00
  | Channel.pump => 0x40

/-- Common body of `set_fan`/`set_pump` (lines 187-201): build the 5-byte
frame, then overwrite byte 4 with 100 when the requested speed exceeds 100. -/
def encode_speed (c : Channel) (speed : Nat) : List Nat :=
  let buf : List Nat := [0x02, 0x4d, channel_selector c, 0x00, speed]
  if speed > 100 then buf.set 4 100 else buf

/-- `struct SensorReading` (lines 255-258). -/
structure SensorReading where
  name : String
  value : ℚ
  deriving DecidableEq, Repr

/-- The aggregation loop of `Monitor::run` (lines 309-314): fold over the
readings starting from `0.0`, keeping the strictly larger value. -/
def highest_temp (temps : List SensorReading) : ℚ :=
  temps.foldl (fun acc t => if t.value > acc then t.value else acc) 0

/-- The loop-local mutable state of `Monitor::run` (lines 305-306):
`previous_temp : f32` and `previous_speed : u8`. -/
structure ControlState where
  previous_temp : ℚ
  previous_speed : Nat
  deriving DecidableEq, Repr

/-- The integer smoothing expression of `Monitor::run` (line 327):
`((previous_speed as u32 * 7) + target_speed as u32) / 8`. -/
def smooth_step (prev target : Nat) : Nat :=
  (prev * 7 + target) / 8

/-- Rust saturating `f32`-to-`u8` cast, as used at line 324 for
`(100.0 * highest_temp / 70.0) as u8`: truncate toward zero, then clamp
to `[0, 255]` (NaN, which yields 0, does not arise in the ℚ model). -/
def u8_of_f32 (q : ℚ) : Nat :=
  if q < 0 then 0 else min 255 (Int.toNat ⌊q⌋)

/-- Lines 327-328 combined: the smoothing division (in `u32`) followed by the
`as u8` cast, which wraps modulo 256. -/
def loop_speed (prev target : Nat) : Nat :=
  smooth_step prev target % 256

/-- One iteration of the `loop` body of `Monitor::run` (lines 307-337),
parametrised by the number of attached USB actuators: aggregate the poll's
readings; when the aggregate differs from the previous one, update the state
and emit a fan frame and a pump frame per actuator, else do nothing.
Returns the new state and the list of emitted frames. -/
def monitor_step (usb_count : Nat) (st : ControlState) (temps : List SensorReading) :
    ControlState × List (List Nat) :=
  let ht := highest_temp temps
  if ht ≠ st.previous_temp then
    let target_speed := u8_of_f32 (100 * ht / 70)
    let new_speed := loop_speed st.previous_speed target_speed
    (⟨ht, new_speed⟩,
      (List.replicate usb_count
        [encode_speed Channel.fan new_speed, encode_speed Channel.pump new_speed]).flatten)
  else
    (st, [])

/-- A finite unrolling of `Monitor::run`: run `monitor_step` over a list of
successive polls, collecting every emitted frame in order. -/
def monitor_run (usb_count : Nat) (st : ControlState) :
    List (List SensorReading) → ControlState × List (List Nat)
  | [] => (st, [])
  | poll :: rest =>
    let out := monitor_step usb_count st poll
    let out2 := monitor_run usb_count out.1 rest
    (out2.1, out.2 ++ out2.2)

/-- The smoothing recurrence of lines 327-329 iterated from
`previous_speed = 0` with the target held at 100. -/
def smooth_iter : Nat → Nat
  | 0 => 0
  | n + 1 => loop_speed (smooth_iter n) 100

/-! ## Helper lemmas -/

/-- An in-bounds fallible list read yields the defaulted read. -/
theorem getElem?_eq_getD (l : List Nat) (i : Nat) (h : i < l.length) :
    l[i]? = some (l.getD i 0) := by
  induction l generalizing i with
  | nil => simp at h
  | cons x xs ih =>
    cases i with
    | zero => simp [List.getD]
    | succ j => simpa [List.getD] using ih j (by simpa using h)

/-- A cycle whose aggregate equals the stored previous aggregate does nothing:
no frames, state untouched. -/
theorem monitor_step_skip (n : Nat) (st : ControlState) (temps : List SensorReading)
    (h : highest_temp temps = st.previous_temp) :
    monitor_step n st temps = (st, []) := by
  simp [monitor_step, h]

/-- A cycle whose aggregate differs from the stored one updates the state and
emits one fan frame and one pump frame per actuator, all built from the
smoothed speed. -/
theorem monitor_step_emit (n : Nat) (st : ControlState) (temps : List SensorReading)
    (h : highest_temp temps ≠ st.previous_temp) :
    monitor_step n st temps =
      (⟨highest_temp temps,
        loop_speed st.previous_speed (u8_of_f32 (100 * highest_temp temps / 70))⟩,
       (List.replicate n
         [encode_speed Channel.fan
            (loop_speed st.previous_speed (u8_of_f32 (100 * highest_temp temps / 70))),
          encode_speed Channel.pump
            (loop_speed st.previous_speed (u8_of_f32 (100 * highest_temp temps / 70)))]).flatten) := by
  simp [monitor_step, h]

/-- The saturating cast never exceeds 255. -/
theorem u8_of_f32_le (q : ℚ) : u8_of_f32 q ≤ 255 := by
  rw [u8_of_f32]
  split
  · omega
  · omega

/-- The smoothing quotient of two byte-sized inputs is byte-sized. -/
theorem smooth_step_le (prev target : Nat) (hp : prev ≤ 255) (ht : target ≤ 255) :
    smooth_step prev target ≤ 255 := by
  rw [smooth_step]
  have h : prev * 7 + target ≤ 2040 := by omega
  calc (prev * 7 + target) / 8 ≤ 2040 / 8 := Nat.div_le_div_right h
    _ = 255 := rfl

/-- For byte-sized inputs the trailing `as u8` cast of the smoothed speed is
the identity. -/
theorem loop_speed_eq_smooth (prev target : Nat) (hp : prev ≤ 255) (ht : target ≤ 255) :
    loop_speed prev target = smooth_step prev target := by
  rw [loop_speed]
  exact Nat.mod_eq_of_lt (by have := smooth_step_le prev target hp ht; omega)

/-! ## The claims -/

/-- Claim C1: for every frame of length at least 7, non-verbose decode returns
a Status with `temperature = frame[1] + frame[2] / 9.0`,
`fan_rpm = (frame[3] <<< 8) ||| frame[4]` and
`pump_rpm = (frame[5] <<< 8) ||| frame[6]`. -/
theorem claim_C1 (buf : List Nat) (h : 7 ≤ buf.length) :
    decode_status buf false =
      some ⟨(buf.getD 1 0 : ℚ) + (buf.getD 2 0 : ℚ) / 9,
            (buf.getD 3 0) <<< 8 ||| buf.getD 4 0,
            (buf.getD 5 0) <<< 8 ||| buf.getD 6 0⟩ := by
  show decode_core buf = _
  rw [decode_core, if_pos (by omega : 6 < buf.length)]
  rw [getElem?_eq_getD buf 1 (by omega), getElem?_eq_getD buf 2 (by omega),
      getElem?_eq_getD buf 3 (by omega), getElem?_eq_getD buf 4 (by omega),
      getElem?_eq_getD buf 5 (by omega), getElem?_eq_getD buf 6 (by omega)]
  simp [Nat.lor_comm]

/-- Claim C1, instantiated: the frame `[0x04, 20, 3, 0x02, 0x58, 0x01, 0x2C]`
decodes to temperature `20 + 3/9`, fan `600`, pump `300`. -/
theorem claim_C1_witness :
    decode_status [4, 20, 3, 2, 88, 1, 44] false = some ⟨20 + 3 / 9, 600, 300⟩ := by
  rw [claim_C1 [4, 20, 3, 2, 88, 1, 44] (by decide)]
  norm_num [List.getD]
  decide

/-- Claim C2: for both channels and every byte-sized percent, the encoded
speed frame is `[0x02, 0x4D, channel_selector, 0x00, min percent 100]`. -/
theorem claim_C2 (c : Channel) (speed : Nat) (h : speed < 256) :
    encode_speed c speed = [0x02, 0x4d, channel_selector c, 0x00, min speed 100] := by
  rcases Nat.lt_or_ge 100 speed with hs | hs
  · simp [encode_speed, hs, Nat.min_def, Nat.not_le.mpr hs]
  · simp [encode_speed, Nat.not_lt.mpr hs, Nat.min_def, hs]

/-- Claim C2, instantiated: `encode_speed fan 150 = encode_speed fan 100`, and
`encode_speed pump 0 = [0x02, 0x4D, 0x40, 0x00, 0x00]`. -/
theorem claim_C2_witness :
    encode_speed Channel.fan 150 = encode_speed Channel.fan 100 ∧
    encode_speed Channel.pump 0 = [0x02, 0x4d, 0x40, 0x00, 0x00] := by
  refine ⟨?_, ?_⟩
  · rw [claim_C2 Channel.fan 150 (by decide), claim_C2 Channel.fan 100 (by decide)]
    decide
  · rw [claim_C2 Channel.pump 0 (by decide)]
    decide

/-- Claim C3 is a code bug: a frame of length ≤ 6 is decoded to the neutral
Status in non-verbose mode, but the verbose path reads `buf[0]` before any
length check, so the empty frame panics (models as `none`) instead of
returning the neutral Status the claim (and the spec's leniency requirement)
promise. -/
theorem claim_C3_bug :
    decode_status [] true = none ∧ decode_status [] false = some ⟨0, 0, 0⟩ := by
  constructor
  · rfl
  · rfl

/-- Claim C4 is a code bug: the verbose template loop indexes
`expected[i - 7]` for every `i < buf.len()`, so any frame longer than 17
bytes (here 18 zero bytes; reads of up to 64 bytes are observed) panics
(models as `none`), while non-verbose decode of the same frame succeeds. -/
theorem claim_C4_bug :
    decode_status (List.replicate 18 0) true = none ∧
    decode_status (List.replicate 18 0) false = some ⟨0, 0, 0⟩ := by
  constructor
  · show (match (List.replicate 18 0 : List Nat)[0]? with
      | none => none
      | some _ =>
        match check_bytes (List.replicate 18 0) 7 with
        | none => none
        | some _ => decode_core (List.replicate 18 0)) = none
    norm_num [check_bytes, expected]
  · show decode_core (List.replicate 18 0) = some ⟨0, 0, 0⟩
    norm_num [decode_core]

/-- Claim C5 as stated is false: the aggregation fold starts at `0.0` and
keeps only strictly larger readings, so for the single reading `-5` the
aggregate is `0`, not the readings' maximum `-5`. -/
theorem claim_C5_counterexample :
    highest_temp [⟨"A", -5⟩] ≠ -5 ∧ highest_temp [⟨"A", -5⟩] = 0 := by
  norm_num [highest_temp]

/-- Claim C5, amended: the aggregate temperature is the maximum of the
readings' temperatures together with the floor `0.0` (hence `0.0` for an
empty poll, and the readings' maximum whenever any reading is nonnegative);
for the readings `[{A,30},{B,45.5},{C,10}]` it is `45.5`. -/
theorem claim_C5_amended :
    (∀ temps : List SensorReading,
      highest_temp temps = (temps.map SensorReading.value).foldl max 0) ∧
    highest_temp [⟨"A", 30⟩, ⟨"B", 45.5⟩, ⟨"C", 10⟩] = 45.5 := by
  constructor
  · intro temps
    suffices h : ∀ a : ℚ,
        temps.foldl (fun acc t => if t.value > acc then t.value else acc) a =
          (temps.map SensorReading.value).foldl max a from h 0
    induction temps with
    | nil => intro a; rfl
    | cons t ts ih =>
      intro a
      simp only [List.foldl_cons, List.map_cons]
      rw [ih]
      congr 1
      rcases lt_or_le a t.value with hc | hc
      · rw [if_pos hc, max_eq_right hc.le]
      · rw [if_neg (not_lt.mpr hc), max_eq_left hc]
  · norm_num [highest_temp]

/-- Claim C6: a cycle whose aggregate equals the previous cycle's aggregate
emits no commands and leaves the state untouched; consequently, of two
consecutive polls with identical aggregate only the first one (when it
differs from the stored aggregate and at least one actuator is attached)
emits, the second emits nothing. -/
theorem claim_C6 (n : Nat) (st : ControlState) (temps temps2 : List SensorReading) :
    (highest_temp temps = st.previous_temp → monitor_step n st temps = (st, [])) ∧
    (highest_temp temps ≠ st.previous_temp → highest_temp temps2 = highest_temp temps →
      (1 ≤ n → (monitor_step n st temps).2 ≠ []) ∧
      (monitor_step n (monitor_step n st temps).1 temps2).2 = []) := by
  refine ⟨monitor_step_skip n st temps, fun h h2 => ⟨?_, ?_⟩⟩
  · intro hn
    rw [monitor_step_emit n st temps h]
    cases n with
    | zero => omega
    | succ m => simp [List.replicate_succ]
  · rw [monitor_step_emit n st temps h,
      monitor_step_skip n _ temps2 (by simpa using h2)]

/-- Claim C6, instantiated: with one actuator and initial state
`⟨0, 0⟩`, two consecutive polls reading 35° emit once, not twice. -/
theorem claim_C6_witness :
    monitor_step 1 ⟨35, 6⟩ [⟨"A", 35⟩] = (⟨35, 6⟩, []) ∧
    (monitor_step 1 ⟨0, 0⟩ [⟨"A", 35⟩]).2 ≠ [] ∧
    (monitor_step 1 (monitor_step 1 ⟨0, 0⟩ [⟨"A", 35⟩]).1 [⟨"A", 35⟩]).2 = [] := by
  have h1 := (claim_C6 1 ⟨35, 6⟩ [⟨"A", 35⟩] [⟨"A", 35⟩]).1 (by norm_num [highest_temp])
  have h2 := (claim_C6 1 ⟨0, 0⟩ [⟨"A", 35⟩] [⟨"A", 35⟩]).2 (by norm_num [highest_temp]) rfl
  exact ⟨h1, h2.1 (by omega), h2.2⟩

/-- Claim C7 as stated is false: the claimed target speed is
`floor(100 * T / 70)` exactly, but the code computes `(100.0 * T / 70.0) as
u8`, a saturating cast.  At aggregate temperature 200 the claim's smoothed
speed from state `⟨0, 0⟩` would be `floor(285.71...) / 8 = 35`, while the code
saturates the target to 255 and stores `31`. -/
theorem claim_C7_counterexample :
    (monitor_step 1 ⟨0, 0⟩ [⟨"A", 200⟩]).1.previous_speed ≠
      smooth_step 0 (Int.toNat ⌊100 * (200 : ℚ) / 70⌋) ∧
    (monitor_step 1 ⟨0, 0⟩ [⟨"A", 200⟩]).1.previous_speed = 31 ∧
    smooth_step 0 (Int.toNat ⌊100 * (200 : ℚ) / 70⌋) = 35 := by
  have hfloor : ⌊100 * (200 : ℚ) / 70⌋ = 285 := by
    rw [Int.floor_eq_iff]
    norm_num
  have hcode : (monitor_step 1 ⟨0, 0⟩ [⟨"A", 200⟩]).1.previous_speed = 31 := by
    norm_num [monitor_step, highest_temp, u8_of_f32, loop_speed, smooth_step, hfloor]
  refine ⟨?_, hcode, ?_⟩
  · rw [hcode, hfloor]
    decide
  · rw [hfloor]
    decide

/-- Claim C7, amended: on a changed cycle the emitted speed is
`floor((previous_speed * 7 + target) / 8)` with the target being the
*saturating* `u8` cast of `100 * T / 70` (it equals `floor(100 * T / 70)`
only up to 255); the state stores this smoothed value, and every actuator is
sent a fan frame and a pump frame encoded from this same smoothed value (whose
wire byte the encoder further clamps to 100). -/
theorem claim_C7_amended (n : Nat) (st : ControlState) (temps : List SensorReading)
    (hsp : st.previous_speed ≤ 255) (h : highest_temp temps ≠ st.previous_temp) :
    monitor_step n st temps =
      (⟨highest_temp temps,
        smooth_step st.previous_speed (u8_of_f32 (100 * highest_temp temps / 70))⟩,
       (List.replicate n
         [encode_speed Channel.fan
            (smooth_step st.previous_speed (u8_of_f32 (100 * highest_temp temps / 70))),
          encode_speed Channel.pump
            (smooth_step st.previous_speed (u8_of_f32 (100 * highest_temp temps / 70)))]).flatten) := by
  rw [monitor_step_emit n st temps h,
    loop_speed_eq_smooth st.previous_speed _ hsp (u8_of_f32_le _)]

/-- Claim C7 (amended), instantiated: from state `⟨0, 0⟩` a poll reading 35°
yields target `floor(50) = 50`, smoothed speed `50 / 8 = 6`, and one fan and
one pump frame carrying 6. -/
theorem claim_C7_witness :
    monitor_step 1 ⟨0, 0⟩ [⟨"A", 35⟩] =
      (⟨35, 6⟩, [[2, 77, 0, 0, 6], [2, 77, 64, 0, 6]]) := by
  rw [claim_C7_amended 1 ⟨0, 0⟩ [⟨"A", 35⟩] (by decide) (by norm_num [highest_temp])]
  have hfloor : ⌊100 * (35 : ℚ) / 70⌋ = 50 := by
    rw [Int.floor_eq_iff]
    norm_num
  norm_num [highest_temp, u8_of_f32, smooth_step, encode_speed, channel_selector, hfloor]
  decide

/-- Each smoothing update with target 100 from a state below 100 does not
decrease and stays at most 100. -/
theorem loop_speed_100_props (s : Nat) (h : s ≤ 100) :
    s ≤ loop_speed s 100 ∧ loop_speed s 100 ≤ 100 := by
  have hle : smooth_step s 100 ≤ 100 := by
    rw [smooth_step]
    calc (s * 7 + 100) / 8 ≤ 800 / 8 := Nat.div_le_div_right (by omega)
      _ = 100 := rfl
  have heq : loop_speed s 100 = smooth_step s 100 :=
    Nat.mod_eq_of_lt (by omega)
  constructor
  · rw [heq, smooth_step]
    rw [Nat.le_div_iff_mul_le (by omega)]
    omega
  · rw [heq]
    exact hle

/-- Every iterate of the smoothing step from 0 with target 100 is at most
100. -/
theorem smooth_iter_le (n : Nat) : smooth_iter n ≤ 100 := by
  induction n with
  | zero => exact Nat.zero_le 100
  | succ m ih => exact (loop_speed_100_props (smooth_iter m) ih).2

/-- Claim C8: starting from `previous_target_speed = 0` and repeatedly
feeding `target_speed = 100` into the smoothing step, the sequence of
smoothed speeds is monotonically non-decreasing and never exceeds 100. -/
theorem claim_C8 (n : Nat) :
    smooth_iter n ≤ smooth_iter (n + 1) ∧ smooth_iter n ≤ 100 :=
  ⟨(loop_speed_100_props (smooth_iter n) (smooth_iter_le n)).1, smooth_iter_le n⟩

/-- Claim C9: non-verbose decode is total: for every byte list it returns a
Status, the bytes at indices 1..6 being read only under the length > 6
guard. -/
theorem claim_C9 (buf : List Nat) : (decode_status buf false).isSome = true := by
  show (decode_core buf).isSome = true
  rw [decode_core]
  split
  · next h =>
    rw [getElem?_eq_getD buf 1 (by omega), getElem?_eq_getD buf 2 (by omega),
        getElem?_eq_getD buf 3 (by omega), getElem?_eq_getD buf 4 (by omega),
        getElem?_eq_getD buf 5 (by omega), getElem?_eq_getD buf 6 (by omega)]
    rfl
  · rfl

/-- Claim C10: starting from the initial state (previous aggregate 0.0,
previous speed 0), a run of poll cycles each of whose aggregate temperature
is 0.0 emits no frame at all and leaves the state at its initial value. -/
theorem claim_C10 (n : Nat) (polls : List (List SensorReading))
    (h : ∀ poll ∈ polls, highest_temp poll = 0) :
    monitor_run n ⟨0, 0⟩ polls = (⟨0, 0⟩, []) := by
  induction polls with
  | nil => rfl
  | cons p ps ih =>
    have hstep : monitor_step n ⟨0, 0⟩ p = (⟨0, 0⟩, []) :=
      monitor_step_skip n ⟨0, 0⟩ p (h p (List.mem_cons_self p ps))
    have ihr := ih fun q hq => h q (List.mem_cons_of_mem p hq)
    simp [monitor_run, hstep, ihr]

/-- Claim C10, instantiated: an empty poll, a reading of exactly 0 and a
negative reading all aggregate to 0.0, so three such polls from the initial
state emit nothing. -/
theorem claim_C10_witness :
    monitor_run 1 ⟨0, 0⟩ [[], [⟨"A", 0⟩], [⟨"B", -3⟩]] = (⟨0, 0⟩, []) := by
  apply claim_C10
  intro poll hpoll
  simp only [List.mem_cons, List.not_mem_nil, or_false] at hpoll
  rcases hpoll with rfl | rfl | rfl
  · rfl
  · norm_num [highest_temp]
  · norm_num [highest_temp]

end Kraken
